import Mathlib

/-!
# Native meter Kafka forwarder

A shallow embedding of `plugins/forwarder/kafka/nativemeter/forwarder.go`.

Conventions of the embedding.

* A Go method with a pointer receiver becomes a function that takes the receiver's
  value and gives back the receiver's value at the end of the call.
* A Go interface value or pointer that may be nil is an `Option`.
* A call can end by returning or by a run-time panic; `Outcome` records which.
* The calls made to the publisher's `SendMessages` are recorded, in order, in the
  `sends` field of the result of `Forward`.
* Go `int` is taken as the 64-bit two's complement integer of the usual targets of the
  program; `time.Duration` is `int64`.  Both are `Int` here, and arithmetic that can
  overflow goes through `wrapInt64`.
* The libraries the file calls (protobuf `proto.Marshal`, `sarama.NewSyncProducerFromClient`,
  `cache.NewLRUExpireCache`, the producer's `SendMessages`) are outside the file.  They are
  parameters of the embedding, with the shape of their Go signatures, and are taken to
  return, but for `cache.NewLRUExpireCache`, which panics on a maximum size that is not
  positive.
-/

namespace nativemeter

/-! ## Go run-time values -/

/-- Go `error` values that are not nil.  `Errorf` is a value built by `fmt.Errorf` in this
package, `foreign` is an error value handed over by a library call. -/
inductive GoError where
  | Errorf (msg : String)
  | foreign (msg : String)
  deriving DecidableEq

/-- The run-time panics a call of the forwarder can end in. -/
inductive GoPanic where
  /-- A method call or field access through a nil interface or nil pointer. -/
  | nilDereference
  /-- A single-value type assertion `x.(T)` on a value whose dynamic type is not `T`. -/
  | typeAssertion
  /-- The panic of `cache.NewLRUExpireCache` on a maximum size that is not positive. -/
  | cacheSize
  deriving DecidableEq

/-- How a call ends. -/
inductive Outcome (α : Type) where
  | returned (a : α)
  | panicked (p : GoPanic)
  deriving DecidableEq

/-- Two's complement wrap-around of a mathematical integer to `int64`. -/
def wrapInt64 (x : Int) : Int := (x + 2 ^ 63) % 2 ^ 64 - 2 ^ 63

/-- The constant `time.Second`, in nanoseconds. -/
def Second : Int := 1000000000

/-! ## Library types -/

/-- A `sarama.ProducerMessage` as far as the forwarder fills it: the topic and the value
(`sarama.ByteEncoder`, a byte slice). -/
structure ProducerMessage where
  Topic : String
  Value : List Nat
  deriving DecidableEq

/-- A `sarama.SyncProducer` that is not nil: what its `SendMessages` answers (nil, or an
error) to a list of messages. -/
structure SyncProducer where
  SendMessages : List ProducerMessage → Option GoError

/-- The oneof wrapper `*v1.SniffData_Meter`; `Meter` is a `*v3.MeterData`. -/
structure SniffData_Meter (M : Type) where
  Meter : Option M

/-- The dynamic values of the interface `isSniffData_Data` that are not nil: a
`*v1.SniffData_Meter` (possibly a nil pointer of that type) or a wrapper of another kind,
given by the name of its type. -/
inductive isSniffData_Data (M : Type) where
  | Meter (p : Option (SniffData_Meter M))
  | Other (kind : String)

/-- A `v1.SniffData`, as far as the forwarder reads it: the oneof field `Data`. -/
structure SniffData (M : Type) where
  Data : Option (isSniffData_Data M)

/-- The type `event.BatchEvents`, a slice of `*v1.SniffData`. -/
abbrev BatchEvents (M : Type) := List (Option (SniffData M))

/-- The generated getter `(*SniffData).GetData`, which is nil on a nil receiver. -/
def GetData {M : Type} (e : Option (SniffData M)) : Option (isSniffData_Data M) :=
  match e with
  | none => none
  | some x => x.Data

/-- The argument `connection interface{}` of `Prepare`: nil, a value whose type implements
`sarama.Client`, or a value of any other type, given by what `reflect.TypeOf(..).String()`
prints for it. -/
inductive Connection (C : Type) where
  | nil
  | client (c : C)
  | other (typeString : String)

/-- The library calls of the file.  `M` is `v3.MeterData`, `C` the implementations of
`sarama.Client`, `K` is `cache.LRUExpireCache`. -/
structure Library (M C K : Type) where
  /-- The call `proto.Marshal`, applied to a `*v3.MeterData`: the bytes and the error. -/
  Marshal : Option M → List Nat × Option GoError
  /-- The call `sarama.NewSyncProducerFromClient`: the producer and the error. -/
  NewSyncProducerFromClient : C → Option SyncProducer × Option GoError
  /-- The cache `cache.NewLRUExpireCache` returns, applied to a positive maximum size. -/
  NewLRUExpireCache : Int → K

/-! ## The forwarder -/

/-- The embedded `config.CommonFields`; no method of the file reads or writes it. -/
structure CommonFields where
  PipeName : String
  deriving DecidableEq

/-- The struct `Forwarder`.  `meterClient` is never assigned or called in the file and is
kept as a handle. -/
structure Forwarder (K : Type) where
  CommonFields : CommonFields
  RoutingRuleLRUCacheSize : Int
  RoutingRuleLRUCacheTTL : Int
  Topic : String
  producer : Option SyncProducer
  meterClient : Option Nat
  upstreamCache : Option K
  upstreamCacheExpire : Int

/-- The constant `Name`. -/
def Name : String := "nativemeter-kafka-forwarder"

/-- The constant `ShowName`. -/
def ShowName : String := "Native Meter Kafka Forwarder"

/-- The method `Name`. -/
def Forwarder.Name {K : Type} (_f : Forwarder K) : String := nativemeter.Name

/-- The method `ShowName`. -/
def Forwarder.ShowName {K : Type} (_f : Forwarder K) : String := nativemeter.ShowName

/-- The result of `Prepare`: the forwarder after the call and how the call ended. -/
structure PrepareResult (K : Type) where
  state : Forwarder K
  outcome : Outcome (Option GoError)

/-- The method `Prepare`. -/
def Prepare {M C K : Type} (lib : Library M C K) (f : Forwarder K)
    (connection : Connection C) : PrepareResult K :=
  match connection with
  | .client client =>
    let (producer, err) := lib.NewSyncProducerFromClient client
    if f.RoutingRuleLRUCacheSize ≤ 0 then
      -- cache.NewLRUExpireCache panics before anything is assigned
      ⟨f, .panicked .cacheSize⟩
    else
      let f1 :=
        { f with upstreamCache := some (lib.NewLRUExpireCache f.RoutingRuleLRUCacheSize) }
      let f2 := { f1 with
        upstreamCacheExpire := wrapInt64 (Second * wrapInt64 f1.RoutingRuleLRUCacheTTL) }
      match err with
      | some e => ⟨f2, .returned (some e)⟩
      | none => ⟨{ f2 with producer := producer }, .returned none⟩
  | .other typeString =>
    ⟨f, .returned (some (.Errorf
      ("the " ++ f.Name ++ " is only accepet the kafka client, but receive a " ++ typeString)))⟩
  | .nil =>
    -- reflect.TypeOf(nil) is the nil Type, and String() is called on it
    ⟨f, .panicked .nilDereference⟩

/-- How the loop of `Forward` ends: it runs to the end with the messages built, or it
leaves the method by `return ok`, or a statement of its body panics. -/
inductive LoopExit where
  | completed (message : List ProducerMessage)
  | returnedError (ok : GoError)
  | panicked (p : GoPanic)
  deriving DecidableEq

/-- The `for _, e := range batch` loop of `Forward`, from the events still to visit and
the value of `message` so far. -/
def forwardLoop {M C K : Type} (lib : Library M C K) (topic : String) :
    BatchEvents M → List ProducerMessage → LoopExit
  | [], message => .completed message
  | e :: rest, message =>
    match GetData e with
    | some (.Meter (some data)) =>
      let (rawdata, ok) := lib.Marshal data.Meter
      match ok with
      | some err => .returnedError err
      | none => forwardLoop lib topic rest (message ++ [⟨topic, rawdata⟩])
    | some (.Meter none) => .panicked .nilDereference
    | some (.Other _) => .panicked .typeAssertion
    | none => .panicked .typeAssertion

/-- The result of `Forward`: the forwarder after the call, how the call ended, and the
argument of each call made to the producer's `SendMessages`, in order. -/
structure ForwardResult (K : Type) where
  state : Forwarder K
  outcome : Outcome (Option GoError)
  sends : List (List ProducerMessage)

/-- The method `Forward`. -/
def Forward {M C K : Type} (lib : Library M C K) (f : Forwarder K)
    (batch : BatchEvents M) : ForwardResult K :=
  match forwardLoop lib f.Topic batch [] with
  | .returnedError ok => ⟨f, .returned (some ok), []⟩
  | .panicked p => ⟨f, .panicked p, []⟩
  | .completed message =>
    match f.producer with
    | none => ⟨f, .panicked .nilDereference, []⟩
    | some producer => ⟨f, .returned (producer.SendMessages message), [message]⟩

/-- The method `SyncForward`: the returned `*v1.SniffData` and the error. -/
def SyncForward {M K : Type} (_f : Forwarder K) (_x : Option (SniffData M)) :
    Option (SniffData M) × Option GoError :=
  (none, some (.Errorf "unsupport sync forward"))

/-- The method `SupportedSyncInvoke`. -/
def SupportedSyncInvoke {K : Type} (_f : Forwarder K) : Bool := false

/-! ## Vocabulary of the statements -/

/-- Whether the payload of an event is of the meter kind: the dynamic type of its `Data`
is `*v1.SniffData_Meter`, the type `Forward` asserts. -/
def isMeterKind {M : Type} (e : Option (SniffData M)) : Bool :=
  match GetData e with
  | some (.Meter _) => true
  | _ => false

/-- The meter payload `data.Meter` of a meter event (an event whose `Data` holds a
`*v1.SniffData_Meter` that is not nil); `none` for any other event. -/
def meterOf {M : Type} (e : Option (SniffData M)) : Option (Option M) :=
  match GetData e with
  | some (.Meter (some data)) => some data.Meter
  | _ => none

/-- The message the loop body of `Forward` appends for an event: the topic and the bytes
`proto.Marshal` gives for its meter payload. -/
def messageOf {M C K : Type} (lib : Library M C K) (topic : String)
    (e : Option (SniffData M)) : ProducerMessage :=
  match meterOf e with
  | some m => ⟨topic, (lib.Marshal m).1⟩
  | none => ⟨topic, []⟩

/-- An event that carries the meter payload `m`. -/
def meterEvent {M : Type} (m : M) : Option (SniffData M) :=
  some ⟨some (.Meter (some ⟨some m⟩))⟩

/-! ## Sample values -/

/-- An event whose payload is of another kind than meter: a log. -/
def logEvent : Option (SniffData (List Nat)) :=
  some ⟨some (.Other "*v1.SniffData_Log")⟩

/-- A producer whose `SendMessages` acknowledges every list of messages. -/
def acceptingProducer : SyncProducer := ⟨fun _ => none⟩

/-- A producer whose `SendMessages` fails on every list of messages. -/
def rejectingProducer : SyncProducer :=
  ⟨fun _ => some (.foreign "kafka: Failed to deliver messages")⟩

/-- A sample library.  Meter payloads are lists of numbers; `Marshal` gives the list back
when all of them are bytes and fails otherwise.  The client `0` cannot build a producer,
every other client builds `acceptingProducer`.  A cache is stood for by its maximum size. -/
def sampleLibrary : Library (List Nat) Nat Int where
  Marshal := fun m =>
    match m with
    | none => ([], none)
    | some bytes =>
      if bytes.all (fun b => decide (b < 256)) then (bytes, none)
      else ([], some (.foreign "proto: cannot marshal"))
  NewSyncProducerFromClient := fun c =>
    if c = 0 then (none, some (.foreign "kafka: client has run out of available brokers"))
    else (some acceptingProducer, none)
  NewLRUExpireCache := fun maxSize => maxSize

/-- A forwarder configured with a cache of 5000 entries that live 180 seconds and with the
default topic, before `Prepare`. -/
def freshForwarder : Forwarder Int :=
  { CommonFields := ⟨"pipe"⟩, RoutingRuleLRUCacheSize := 5000, RoutingRuleLRUCacheTTL := 180,
    Topic := "skywalking-meters", producer := none, meterClient := none,
    upstreamCache := none, upstreamCacheExpire := 0 }

/-- A forwarder whose producer is set and acknowledges every send. -/
def preparedForwarder : Forwarder Int :=
  { freshForwarder with producer := some acceptingProducer }

/-- A forwarder whose producer is set and fails every send. -/
def failingForwarder : Forwarder Int :=
  { freshForwarder with producer := some rejectingProducer }

/-- A forwarder configured with the topic alone, as in `DefaultConfig`: the size and the
lifetime of the cache have the zero value of `int`. -/
def topicOnlyForwarder : Forwarder Int :=
  { freshForwarder with RoutingRuleLRUCacheSize := 0, RoutingRuleLRUCacheTTL := 0 }

/-- A forwarder configured with the least lifetime, in seconds, that is too long for a
`time.Duration` in nanoseconds. -/
def longLivedForwarder : Forwarder Int :=
  { freshForwarder with RoutingRuleLRUCacheTTL := 9223372037 }

/-! ## Arithmetic -/

/-- On the values of `int64`, `wrapInt64` changes nothing. -/
theorem wrapInt64_of_fits (x : Int) (hlo : -9223372036854775808 ≤ x)
    (hhi : x ≤ 9223372036854775807) : wrapInt64 x = x := by
  unfold wrapInt64
  norm_num
  omega

/-! ## The loop of `Forward` -/

theorem meterOf_eq_some {M : Type} {e : Option (SniffData M)} {m : Option M}
    (h : meterOf e = some m) :
    ∃ data : SniffData_Meter M, GetData e = some (.Meter (some data)) ∧ data.Meter = m := by
  unfold meterOf at h
  split at h
  · next data hd => exact ⟨data, hd, by simpa using h⟩
  · simp at h

theorem meterOf_of_not_meterKind {M : Type} {e : Option (SniffData M)}
    (h : isMeterKind e = false) : meterOf e = none := by
  unfold isMeterKind at h
  unfold meterOf
  split at h
  · simp at h
  · next hne =>
    split
    · next data hd => exact absurd hd (hne _)
    · rfl

/-- One turn of the loop on a meter event that encodes. -/
theorem forwardLoop_cons_encoded {M C K : Type} (lib : Library M C K) (topic : String)
    (e : Option (SniffData M)) (rest : BatchEvents M) (acc : List ProducerMessage)
    (m : Option M) (hm : meterOf e = some m) (hok : (lib.Marshal m).2 = none) :
    forwardLoop lib topic (e :: rest) acc
      = forwardLoop lib topic rest (acc ++ [messageOf lib topic e]) := by
  obtain ⟨data, hd, rfl⟩ := meterOf_eq_some hm
  rw [forwardLoop]
  simp only [hd, messageOf, hm]
  have h2 : (lib.Marshal data.Meter).2 = none := hok
  simp only [h2]

/-- One turn of the loop on a meter event that does not encode. -/
theorem forwardLoop_cons_failed {M C K : Type} (lib : Library M C K) (topic : String)
    (e : Option (SniffData M)) (rest : BatchEvents M) (acc : List ProducerMessage)
    (m : Option M) (err : GoError) (hm : meterOf e = some m)
    (herr : (lib.Marshal m).2 = some err) :
    forwardLoop lib topic (e :: rest) acc = .returnedError err := by
  obtain ⟨data, hd, rfl⟩ := meterOf_eq_some hm
  rw [forwardLoop]
  simp only [hd]
  have h2 : (lib.Marshal data.Meter).2 = some err := herr
  simp only [h2]

/-- One turn of the loop on an event that is not a meter event. -/
theorem forwardLoop_cons_not_meter {M C K : Type} (lib : Library M C K) (topic : String)
    (e : Option (SniffData M)) (rest : BatchEvents M) (acc : List ProducerMessage)
    (hm : meterOf e = none) :
    ∃ p, forwardLoop lib topic (e :: rest) acc = .panicked p := by
  rw [forwardLoop]
  unfold meterOf at hm
  split at hm
  · simp at hm
  · next hne =>
    split
    · next data hd => exact absurd hd (hne _)
    · exact ⟨_, rfl⟩
    · exact ⟨_, rfl⟩
    · exact ⟨_, rfl⟩

/-- The loop runs to the end on a batch of meter events that all encode, and has then
appended one message per event, in the order of the batch. -/
theorem forwardLoop_all_encoded {M C K : Type} (lib : Library M C K) (topic : String)
    (batch : BatchEvents M) (acc : List ProducerMessage)
    (hok : ∀ e ∈ batch, ∃ m, meterOf e = some m ∧ (lib.Marshal m).2 = none) :
    forwardLoop lib topic batch acc
      = .completed (acc ++ batch.map (messageOf lib topic)) := by
  induction batch generalizing acc with
  | nil => simp [forwardLoop]
  | cons e rest ih =>
    obtain ⟨m, hm, hmok⟩ := hok e (List.mem_cons_self _ _)
    rw [forwardLoop_cons_encoded lib topic e rest acc m hm hmok,
      ih _ (fun x hx => hok x (List.mem_cons_of_mem _ hx))]
    simp

/-- The three ways the loop can end, with what each says about the batch. -/
theorem forwardLoop_exit {M C K : Type} (lib : Library M C K) (topic : String)
    (batch : BatchEvents M) (acc : List ProducerMessage) :
    (∃ msgs, forwardLoop lib topic batch acc = .completed msgs ∧
        ∀ e ∈ batch, ∃ m, meterOf e = some m ∧ (lib.Marshal m).2 = none)
    ∨ (∃ err, forwardLoop lib topic batch acc = .returnedError err ∧
        ∃ e ∈ batch, ∃ m, meterOf e = some m ∧ (lib.Marshal m).2 = some err)
    ∨ (∃ p, forwardLoop lib topic batch acc = .panicked p ∧
        ∃ e ∈ batch, meterOf e = none) := by
  induction batch generalizing acc with
  | nil => exact Or.inl ⟨acc, by simp [forwardLoop], by simp⟩
  | cons e rest ih =>
    cases hm : meterOf e with
    | none =>
      obtain ⟨p, hp⟩ := forwardLoop_cons_not_meter lib topic e rest acc hm
      exact Or.inr (Or.inr ⟨p, hp, e, List.mem_cons_self _ _, hm⟩)
    | some m =>
      cases herr : (lib.Marshal m).2 with
      | some err =>
        refine Or.inr (Or.inl ⟨err, ?_, e, List.mem_cons_self _ _, m, hm, herr⟩)
        exact forwardLoop_cons_failed lib topic e rest acc m err hm herr
      | none =>
        rw [forwardLoop_cons_encoded lib topic e rest acc m hm herr]
        rcases ih (acc ++ [messageOf lib topic e]) with h | h | h
        · obtain ⟨msgs, h1, h2⟩ := h
          refine Or.inl ⟨msgs, h1, ?_⟩
          intro x hx
          rcases List.mem_cons.mp hx with rfl | hx
          · exact ⟨m, hm, herr⟩
          · exact h2 x hx
        · obtain ⟨err, h1, x, hx, h2⟩ := h
          exact Or.inr (Or.inl ⟨err, h1, x, List.mem_cons_of_mem _ hx, h2⟩)
        · obtain ⟨p, h1, x, hx, h2⟩ := h
          exact Or.inr (Or.inr ⟨p, h1, x, List.mem_cons_of_mem _ hx, h2⟩)

/-- The loop leaves by `return ok` at the first event that does not encode, when the
events before it are meter events that encode. -/
theorem forwardLoop_first_failure {M C K : Type} (lib : Library M C K) (topic : String)
    (batch : BatchEvents M) (acc : List ProducerMessage) (i : Nat)
    (e : Option (SniffData M)) (m : Option M) (err : GoError)
    (hi : batch[i]? = some e) (hm : meterOf e = some m)
    (herr : (lib.Marshal m).2 = some err)
    (hbefore : ∀ j, j < i → ∀ x, batch[j]? = some x →
      ∃ n, meterOf x = some n ∧ (lib.Marshal n).2 = none) :
    forwardLoop lib topic batch acc = .returnedError err := by
  induction batch generalizing acc i with
  | nil => simp at hi
  | cons x rest ih =>
    cases i with
    | zero =>
      simp only [List.getElem?_cons_zero, Option.some.injEq] at hi
      subst hi
      exact forwardLoop_cons_failed lib topic x rest acc m err hm herr
    | succ k =>
      obtain ⟨n, hn, hnok⟩ := hbefore 0 (Nat.succ_pos k) x (by simp)
      rw [forwardLoop_cons_encoded lib topic x rest acc n hn hnok]
      apply ih _ k
      · simpa using hi
      · intro j hj y hy
        exact hbefore (j + 1) (Nat.succ_lt_succ hj) y (by simpa using hy)

/-- One turn of the loop on an event whose payload is not of the meter kind. -/
theorem forwardLoop_cons_another_kind {M C K : Type} (lib : Library M C K) (topic : String)
    (e : Option (SniffData M)) (rest : BatchEvents M) (acc : List ProducerMessage)
    (hk : isMeterKind e = false) :
    forwardLoop lib topic (e :: rest) acc = .panicked .typeAssertion := by
  rw [forwardLoop]
  unfold isMeterKind at hk
  split at hk
  · simp at hk
  · next hne =>
    split
    · next data hd => exact absurd hd (hne _)
    · next hd => exact absurd hd (hne _)
    · rfl
    · rfl

/-- The loop panics on the type assertion at the first event of another kind, when the
events before it are meter events that encode. -/
theorem forwardLoop_first_of_another_kind {M C K : Type} (lib : Library M C K)
    (topic : String) (batch : BatchEvents M) (acc : List ProducerMessage) (i : Nat)
    (e : Option (SniffData M))
    (hi : batch[i]? = some e) (hk : isMeterKind e = false)
    (hbefore : ∀ j, j < i → ∀ x, batch[j]? = some x →
      ∃ n, meterOf x = some n ∧ (lib.Marshal n).2 = none) :
    forwardLoop lib topic batch acc = .panicked .typeAssertion := by
  induction batch generalizing acc i with
  | nil => simp at hi
  | cons x rest ih =>
    cases i with
    | zero =>
      simp only [List.getElem?_cons_zero, Option.some.injEq] at hi
      subst hi
      exact forwardLoop_cons_another_kind lib topic x rest acc hk
    | succ k =>
      obtain ⟨n, hn, hnok⟩ := hbefore 0 (Nat.succ_pos k) x (by simp)
      rw [forwardLoop_cons_encoded lib topic x rest acc n hn hnok]
      apply ih _ k
      · simpa using hi
      · intro j hj y hy
        exact hbefore (j + 1) (Nat.succ_lt_succ hj) y (by simpa using hy)

/-- No statement of `Forward` assigns to the forwarder. -/
theorem Forward_state {M C K : Type} (lib : Library M C K) (f : Forwarder K)
    (batch : BatchEvents M) : (Forward lib f batch).state = f := by
  unfold Forward
  split
  · rfl
  · rfl
  · split <;> rfl

/-- What `Forward` does once the loop has run to the end, with the producer set. -/
theorem Forward_of_completed {M C K : Type} (lib : Library M C K) (f : Forwarder K)
    (batch : BatchEvents M) (p : SyncProducer) (msgs : List ProducerMessage)
    (hp : f.producer = some p) (hloop : forwardLoop lib f.Topic batch [] = .completed msgs) :
    (Forward lib f batch).outcome = .returned (p.SendMessages msgs) ∧
      (Forward lib f batch).sends = [msgs] := by
  unfold Forward
  rw [hloop]
  simp only [hp, and_self]

/-- The ways `Forward` can end: the loop runs to the end on a batch of meter events that
all encode; or an event does not encode and its error is returned, with no send; or an
event is not a meter event and the call panics, with no send. -/
theorem Forward_cases {M C K : Type} (lib : Library M C K) (f : Forwarder K)
    (batch : BatchEvents M) :
    (∃ msgs, forwardLoop lib f.Topic batch [] = .completed msgs ∧
        ∀ e ∈ batch, ∃ m, meterOf e = some m ∧ (lib.Marshal m).2 = none)
    ∨ ((Forward lib f batch).sends = [] ∧
        ∃ err, (Forward lib f batch).outcome = .returned (some err) ∧
          ∃ e ∈ batch, ∃ m, meterOf e = some m ∧ (lib.Marshal m).2 = some err)
    ∨ ((Forward lib f batch).sends = [] ∧
        ∃ p, (Forward lib f batch).outcome = .panicked p ∧
          ∃ e ∈ batch, meterOf e = none) := by
  rcases forwardLoop_exit lib f.Topic batch [] with h | h | h
  · exact Or.inl h
  · obtain ⟨err, hloop, hmem⟩ := h
    refine Or.inr (Or.inl ?_)
    unfold Forward
    rw [hloop]
    exact ⟨rfl, err, rfl, hmem⟩
  · obtain ⟨p, hloop, hmem⟩ := h
    refine Or.inr (Or.inr ?_)
    unfold Forward
    rw [hloop]
    exact ⟨rfl, p, rfl, hmem⟩

/-! ## Forward -/

/-- C1. With the producer set, on a batch of meter events whose payloads all encode,
`Forward` makes exactly one call to the producer's `SendMessages`; the list it hands over
has as many messages as the batch has events, and the message at each index has the
configured `Topic` and, as value, the bytes `proto.Marshal` gives for the meter payload of
the event at that index.  (The batch may have any length.) -/
theorem Forward_hands_one_message_per_event {M C K : Type} (lib : Library M C K)
    (f : Forwarder K) (p : SyncProducer) (batch : BatchEvents M)
    (hprepared : f.producer = some p)
    (hencode : ∀ e ∈ batch, ∃ m, meterOf e = some m ∧ (lib.Marshal m).2 = none) :
    ∃ msgs : List ProducerMessage,
      (Forward lib f batch).sends = [msgs] ∧
      msgs.length = batch.length ∧
      ∀ (i : Nat) (e : Option (SniffData M)), batch[i]? = some e →
        ∃ m, meterOf e = some m ∧
          msgs[i]? = some { Topic := f.Topic, Value := (lib.Marshal m).1 } := by
  have hloop := forwardLoop_all_encoded lib f.Topic batch [] hencode
  rw [List.nil_append] at hloop
  refine ⟨batch.map (messageOf lib f.Topic),
    (Forward_of_completed lib f batch p _ hprepared hloop).2, by simp, ?_⟩
  intro i e hi
  obtain ⟨m, hm, _⟩ := hencode e (List.getElem?_mem hi)
  refine ⟨m, hm, ?_⟩
  rw [List.getElem?_map, hi]
  simp [messageOf, hm]

/-- The example of the specification for C1: payload bytes 01 02 and 03, topic
"skywalking-meters". -/
theorem Forward_hands_one_message_per_event_witness :
    preparedForwarder.producer = some acceptingProducer ∧
    (∀ e ∈ [meterEvent [1, 2], meterEvent [3]],
      ∃ m, meterOf e = some m ∧ (sampleLibrary.Marshal m).2 = none) ∧
    ∃ msgs : List ProducerMessage,
      (Forward sampleLibrary preparedForwarder [meterEvent [1, 2], meterEvent [3]]).sends
        = [msgs] ∧
      msgs.length = [meterEvent [1, 2], meterEvent [3]].length ∧
      ∀ (i : Nat) (e : Option (SniffData (List Nat))),
        [meterEvent [1, 2], meterEvent [3]][i]? = some e →
        ∃ m, meterOf e = some m ∧
          msgs[i]? = some { Topic := preparedForwarder.Topic,
                            Value := (sampleLibrary.Marshal m).1 } :=
  have hencode : ∀ e ∈ [meterEvent [1, 2], meterEvent [3]],
      ∃ m, meterOf e = some m ∧ (sampleLibrary.Marshal m).2 = none := by
    intro e he
    simp only [List.mem_cons, List.mem_singleton, List.not_mem_nil, or_false] at he
    rcases he with rfl | rfl
    · exact ⟨some [1, 2], rfl, by decide⟩
    · exact ⟨some [3], rfl, by decide⟩
  ⟨rfl, hencode,
    Forward_hands_one_message_per_event sampleLibrary preparedForwarder acceptingProducer
      [meterEvent [1, 2], meterEvent [3]] rfl hencode⟩

/-- The example of the specification, evaluated: the two messages, in the order of the
batch, in one send, and success. -/
theorem Forward_example_of_the_specification :
    (Forward sampleLibrary preparedForwarder [meterEvent [1, 2], meterEvent [3]]).sends
      = [[⟨"skywalking-meters", [1, 2]⟩, ⟨"skywalking-meters", [3]⟩]] ∧
    (Forward sampleLibrary preparedForwarder [meterEvent [1, 2], meterEvent [3]]).outcome
      = .returned none := by
  decide

/-- C3. On a batch of meter events, when the event at index `i` is the first that does not
encode, `Forward` returns the error `proto.Marshal` gave for that event and makes no call
to the producer: the messages built for the events before it are dropped. -/
theorem Forward_first_encoding_failure {M C K : Type} (lib : Library M C K)
    (f : Forwarder K) (batch : BatchEvents M) (i : Nat) (e : Option (SniffData M))
    (m : Option M) (err : GoError)
    (hmeters : ∀ x ∈ batch, ∃ n, meterOf x = some n)
    (hi : batch[i]? = some e) (hm : meterOf e = some m)
    (hfails : (lib.Marshal m).2 = some err)
    (hfirst : ∀ j, j < i → ∀ x n, batch[j]? = some x → meterOf x = some n →
      (lib.Marshal n).2 = none) :
    (Forward lib f batch).outcome = .returned (some err) ∧
      (Forward lib f batch).sends = [] ∧
      (Forward lib f batch).state = f := by
  have hbefore : ∀ j, j < i → ∀ x, batch[j]? = some x →
      ∃ n, meterOf x = some n ∧ (lib.Marshal n).2 = none := by
    intro j hj x hx
    obtain ⟨n, hn⟩ := hmeters x (List.getElem?_mem hx)
    exact ⟨n, hn, hfirst j hj x n hx hn⟩
  have hloop := forwardLoop_first_failure lib f.Topic batch [] i e m err hi hm hfails hbefore
  refine ⟨?_, ?_, Forward_state lib f batch⟩
  · unfold Forward
    rw [hloop]
  · unfold Forward
    rw [hloop]

/-- A batch of three meter events whose second payload does not encode. -/
theorem Forward_first_encoding_failure_witness :
    (∀ x ∈ [meterEvent [1, 2], meterEvent [300], meterEvent [3]],
      ∃ n, meterOf x = some n) ∧
    [meterEvent [1, 2], meterEvent [300], meterEvent [3]][1]? = some (meterEvent [300]) ∧
    meterOf (meterEvent [300]) = some (some [300]) ∧
    (sampleLibrary.Marshal (some [300])).2 = some (.foreign "proto: cannot marshal") ∧
    (Forward sampleLibrary preparedForwarder
        [meterEvent [1, 2], meterEvent [300], meterEvent [3]]).outcome
      = .returned (some (.foreign "proto: cannot marshal")) ∧
    (Forward sampleLibrary preparedForwarder
        [meterEvent [1, 2], meterEvent [300], meterEvent [3]]).sends = [] ∧
    (Forward sampleLibrary preparedForwarder
        [meterEvent [1, 2], meterEvent [300], meterEvent [3]]).state = preparedForwarder :=
  have hmeters : ∀ x ∈ [meterEvent [1, 2], meterEvent [300], meterEvent [3]],
      ∃ n, meterOf x = some n := by
    intro x hx
    simp only [List.mem_cons, List.mem_singleton, List.not_mem_nil, or_false] at hx
    rcases hx with rfl | rfl | rfl
    · exact ⟨some [1, 2], rfl⟩
    · exact ⟨some [300], rfl⟩
    · exact ⟨some [3], rfl⟩
  have hfirst : ∀ j, j < 1 → ∀ (x : Option (SniffData (List Nat))) (n : Option (List Nat)),
      [meterEvent [1, 2], meterEvent [300], meterEvent [3]][j]? = some x →
      meterOf x = some n → (sampleLibrary.Marshal n).2 = none := by
    intro j hj x n hx hn
    obtain rfl : j = 0 := by omega
    simp only [List.getElem?_cons_zero, Option.some.injEq] at hx
    subst hx
    obtain rfl : some [1, 2] = n := by simpa [meterOf, meterEvent, GetData] using hn
    decide
  ⟨hmeters, rfl, rfl, by decide,
    Forward_first_encoding_failure sampleLibrary preparedForwarder
      [meterEvent [1, 2], meterEvent [300], meterEvent [3]] 1 (meterEvent [300])
      (some [300]) (.foreign "proto: cannot marshal") hmeters rfl rfl (by decide) hfirst⟩

/-- C5, as the code has it.  With the producer set, `Forward` on the empty batch makes
one call to the producer's `SendMessages`, with the empty list of messages, and returns
what that call returns. -/
theorem Forward_empty_batch_sends_the_empty_list {M C K : Type} (lib : Library M C K)
    (f : Forwarder K) (p : SyncProducer) (hprepared : f.producer = some p) :
    (Forward lib f []).sends = [[]] ∧
      (Forward lib f []).outcome = .returned (p.SendMessages []) ∧
      (Forward lib f []).state = f := by
  have h := Forward_of_completed lib f [] p [] hprepared (by simp [forwardLoop])
  exact ⟨h.2, h.1, Forward_state lib f []⟩

/-- The empty batch with a producer that fails every send. -/
theorem Forward_empty_batch_sends_the_empty_list_witness :
    failingForwarder.producer = some rejectingProducer ∧
    (Forward sampleLibrary failingForwarder []).sends = [[]] ∧
    (Forward sampleLibrary failingForwarder []).outcome
      = .returned (rejectingProducer.SendMessages []) ∧
    (Forward sampleLibrary failingForwarder []).state = failingForwarder :=
  ⟨rfl, Forward_empty_batch_sends_the_empty_list sampleLibrary failingForwarder
    rejectingProducer rfl⟩

/-- C5 as stated fails: on the empty batch a forwarder whose producer acknowledges
everything does call the producer, once, so it is not so that it returns success with no
call made. -/
theorem Forward_empty_batch_is_not_without_send :
    preparedForwarder.producer = some acceptingProducer ∧
    (Forward sampleLibrary preparedForwarder []).sends = [[]] ∧
    ¬ ((Forward sampleLibrary preparedForwarder []).outcome = .returned none ∧
        (Forward sampleLibrary preparedForwarder []).sends = []) :=
  ⟨rfl, by decide, by decide⟩

/-- C2, as the code has it.  On a batch that holds an event whose payload is not of the
meter kind, `Forward` makes no call to the producer, leaves the forwarder as it was and
does not return success.  It returns no error of its own for the kind: it panics (on the
type assertion, or on a nil wrapper met before), unless a meter event of the batch does
not encode, whose error from `proto.Marshal` it may return instead.  When every meter
payload of the batch encodes, it panics; when the events before the first event of
another kind are meter events that encode, it panics on the type assertion. -/
theorem Forward_event_of_another_kind {M C K : Type} (lib : Library M C K)
    (f : Forwarder K) (batch : BatchEvents M)
    (hkind : ∃ e ∈ batch, isMeterKind e = false) :
    (Forward lib f batch).sends = [] ∧
      (Forward lib f batch).state = f ∧
      (Forward lib f batch).outcome ≠ .returned none ∧
      ((∃ p, (Forward lib f batch).outcome = .panicked p) ∨
        ∃ err, (Forward lib f batch).outcome = .returned (some err) ∧
          ∃ e ∈ batch, ∃ m, meterOf e = some m ∧ (lib.Marshal m).2 = some err) ∧
      ((∀ e ∈ batch, ∀ m, meterOf e = some m → (lib.Marshal m).2 = none) →
        ∃ p, (Forward lib f batch).outcome = .panicked p) ∧
      (∀ (i : Nat) (e : Option (SniffData M)), batch[i]? = some e → isMeterKind e = false →
        (∀ j, j < i → ∀ x, batch[j]? = some x →
          ∃ n, meterOf x = some n ∧ (lib.Marshal n).2 = none) →
        (Forward lib f batch).outcome = .panicked .typeAssertion) := by
  have hfirst : ∀ (i : Nat) (e : Option (SniffData M)), batch[i]? = some e →
      isMeterKind e = false →
      (∀ j, j < i → ∀ x, batch[j]? = some x →
        ∃ n, meterOf x = some n ∧ (lib.Marshal n).2 = none) →
      (Forward lib f batch).outcome = .panicked .typeAssertion := by
    intro i e hi hk hbefore
    unfold Forward
    rw [forwardLoop_first_of_another_kind lib f.Topic batch [] i e hi hk hbefore]
  obtain ⟨e0, he0, hk⟩ := hkind
  have hnone := meterOf_of_not_meterKind hk
  rcases Forward_cases lib f batch with h | h | h
  · obtain ⟨_, _, hall⟩ := h
    obtain ⟨m, hm, _⟩ := hall e0 he0
    rw [hnone] at hm
    cases hm
  · obtain ⟨hs, err, ho, e, he, m, hm, herr⟩ := h
    refine ⟨hs, Forward_state lib f batch, ?_, Or.inr ⟨err, ho, e, he, m, hm, herr⟩, ?_,
      hfirst⟩
    · rw [ho]
      intro hc
      cases hc
    · intro hall
      rw [hall e he m hm] at herr
      cases herr
  · obtain ⟨hs, p, ho, _⟩ := h
    refine ⟨hs, Forward_state lib f batch, ?_, Or.inl ⟨p, ho⟩, fun _ => ⟨p, ho⟩, hfirst⟩
    rw [ho]
    intro hc
    cases hc

/-- A log event between two meter events. -/
theorem Forward_event_of_another_kind_witness :
    (∃ e ∈ [meterEvent [1], logEvent, meterEvent [2]], isMeterKind e = false) ∧
    (Forward sampleLibrary preparedForwarder [meterEvent [1], logEvent, meterEvent [2]]).sends
      = [] ∧
    (Forward sampleLibrary preparedForwarder [meterEvent [1], logEvent, meterEvent [2]]).outcome
      = .panicked .typeAssertion :=
  have hkind : ∃ e ∈ [meterEvent [1], logEvent, meterEvent [2]], isMeterKind e = false :=
    ⟨logEvent, by simp, rfl⟩
  ⟨hkind,
    (Forward_event_of_another_kind sampleLibrary preparedForwarder
      [meterEvent [1], logEvent, meterEvent [2]] hkind).1,
    by decide⟩

/-- C2 as stated fails: on a batch of one log event `Forward` returns no error, it
panics on the type assertion. -/
theorem Forward_event_of_another_kind_returns_no_error :
    isMeterKind logEvent = false ∧
    (Forward sampleLibrary preparedForwarder [logEvent]).outcome
      = .panicked .typeAssertion ∧
    ¬ ∃ err, (Forward sampleLibrary preparedForwarder [logEvent]).outcome
      = .returned (some err) := by
  have hp : (Forward sampleLibrary preparedForwarder [logEvent]).outcome
      = .panicked .typeAssertion := by decide
  refine ⟨rfl, hp, ?_⟩
  intro ⟨err, h⟩
  rw [hp] at h
  cases h

/-- C7, as the code has it.  With the producer unset, `Forward` makes no call to a
producer, leaves the forwarder as it was and does not return success, whatever the batch.
It returns an error only when a meter event of the batch does not encode (the error of
`proto.Marshal`); otherwise it panics, and so it does on every batch whose meter payloads
all encode; on a batch of meter events that all encode, the empty batch among them, the
panic is the nil dereference of the unset producer. -/
theorem Forward_before_Prepare {M C K : Type} (lib : Library M C K)
    (f : Forwarder K) (batch : BatchEvents M) (hunset : f.producer = none) :
    (Forward lib f batch).sends = [] ∧
      (Forward lib f batch).state = f ∧
      (Forward lib f batch).outcome ≠ .returned none ∧
      ((∃ p, (Forward lib f batch).outcome = .panicked p) ∨
        ∃ err, (Forward lib f batch).outcome = .returned (some err) ∧
          ∃ e ∈ batch, ∃ m, meterOf e = some m ∧ (lib.Marshal m).2 = some err) ∧
      ((∀ e ∈ batch, ∀ m, meterOf e = some m → (lib.Marshal m).2 = none) →
        ∃ p, (Forward lib f batch).outcome = .panicked p) ∧
      ((∀ e ∈ batch, ∃ m, meterOf e = some m ∧ (lib.Marshal m).2 = none) →
        (Forward lib f batch).outcome = .panicked .nilDereference) := by
  have hall : (∀ e ∈ batch, ∃ m, meterOf e = some m ∧ (lib.Marshal m).2 = none) →
      (Forward lib f batch).outcome = .panicked .nilDereference := by
    intro hok
    have hloop := forwardLoop_all_encoded lib f.Topic batch [] hok
    unfold Forward
    rw [hloop]
    simp only [hunset]
  rcases Forward_cases lib f batch with h | h | h
  · obtain ⟨msgs, hloop, _⟩ := h
    have hf : Forward lib f batch = ⟨f, .panicked .nilDereference, []⟩ := by
      unfold Forward
      rw [hloop]
      simp only [hunset]
    rw [hf]
    rw [hf] at hall
    refine ⟨rfl, rfl, ?_, Or.inl ⟨_, rfl⟩, fun _ => ⟨_, rfl⟩, hall⟩
    intro hc
    cases hc
  · obtain ⟨hs, err, ho, e, he, m, hm, herr⟩ := h
    refine ⟨hs, Forward_state lib f batch, ?_, Or.inr ⟨err, ho, e, he, m, hm, herr⟩, ?_,
      hall⟩
    · rw [ho]
      intro hc
      cases hc
    · intro hall
      rw [hall e he m hm] at herr
      cases herr
  · obtain ⟨hs, p, ho, _⟩ := h
    refine ⟨hs, Forward_state lib f batch, ?_, Or.inl ⟨p, ho⟩, fun _ => ⟨p, ho⟩, hall⟩
    rw [ho]
    intro hc
    cases hc

/-- A forwarder on which `Prepare` was never called, with a batch of one meter event. -/
theorem Forward_before_Prepare_witness :
    freshForwarder.producer = none ∧
    (Forward sampleLibrary freshForwarder [meterEvent [1]]).sends = [] ∧
    (Forward sampleLibrary freshForwarder [meterEvent [1]]).state = freshForwarder ∧
    (Forward sampleLibrary freshForwarder [meterEvent [1]]).outcome
      = .panicked .nilDereference :=
  ⟨rfl,
    (Forward_before_Prepare sampleLibrary freshForwarder [meterEvent [1]] rfl).1,
    (Forward_before_Prepare sampleLibrary freshForwarder [meterEvent [1]] rfl).2.1,
    by decide⟩

/-- C7 as stated fails: on the empty batch a forwarder with the producer unset returns no
error, it panics on the nil producer. -/
theorem Forward_before_Prepare_returns_no_error :
    freshForwarder.producer = none ∧
    (Forward sampleLibrary freshForwarder []).outcome = .panicked .nilDereference ∧
    ¬ ∃ err, (Forward sampleLibrary freshForwarder []).outcome = .returned (some err) := by
  have hp : (Forward sampleLibrary freshForwarder []).outcome
      = .panicked .nilDereference := by decide
  refine ⟨rfl, hp, ?_⟩
  intro ⟨err, h⟩
  rw [hp] at h
  cases h

/-! ## Prepare -/

/-- C6, the nil connection.  `Prepare` on the nil connection returns no error: it panics,
on the call of `String` on the nil `reflect.Type`, with the forwarder as it was. -/
theorem Prepare_nil_connection_panics {M C K : Type} (lib : Library M C K)
    (f : Forwarder K) :
    (Prepare lib f .nil).outcome = .panicked .nilDereference ∧
      (¬ ∃ err, (Prepare lib f .nil).outcome = .returned (some err)) ∧
      (Prepare lib f .nil).state = f := by
  refine ⟨rfl, ?_, rfl⟩
  intro ⟨err, h⟩
  cases h

/-- On a connection that is not nil and whose type is not a Kafka client, `Prepare`
returns an error whose message names the forwarder, the kind it accepts and the type it
received, and leaves the forwarder as it was. -/
theorem Prepare_connection_of_another_type {M C K : Type} (lib : Library M C K)
    (f : Forwarder K) (typeString : String) :
    (Prepare lib f (.other typeString)).outcome
        = .returned (some (.Errorf
            ("the nativemeter-kafka-forwarder is only accepet the kafka client, but receive a "
              ++ typeString))) ∧
      (Prepare lib f (.other typeString)).state = f := by
  refine ⟨?_, rfl⟩
  simp only [Prepare, Forwarder.Name, Name]
  rfl

/-- C9, as the code has it.  On a Kafka client for which the producer is built without
error, with a positive `RoutingRuleLRUCacheSize` and a `RoutingRuleLRUCacheTTL` that is
positive and at most 9223372036, `Prepare` returns nil; afterwards the forwarder holds the
producer built from the client, the cache built for the size `RoutingRuleLRUCacheSize`, and
the lifetime `RoutingRuleLRUCacheTTL` times 1000000000 nanoseconds; the three configured
fields are as before. -/
theorem Prepare_success {M C K : Type} (lib : Library M C K) (f : Forwarder K) (c : C)
    (hbuilt : (lib.NewSyncProducerFromClient c).2 = none)
    (hsize : 0 < f.RoutingRuleLRUCacheSize)
    (httl : 0 < f.RoutingRuleLRUCacheTTL)
    (hfits : f.RoutingRuleLRUCacheTTL ≤ 9223372036) :
    (Prepare lib f (.client c)).outcome = .returned none ∧
      (Prepare lib f (.client c)).state.producer = (lib.NewSyncProducerFromClient c).1 ∧
      (Prepare lib f (.client c)).state.upstreamCache
        = some (lib.NewLRUExpireCache f.RoutingRuleLRUCacheSize) ∧
      (Prepare lib f (.client c)).state.upstreamCacheExpire
        = f.RoutingRuleLRUCacheTTL * 1000000000 ∧
      (Prepare lib f (.client c)).state.RoutingRuleLRUCacheSize = f.RoutingRuleLRUCacheSize ∧
      (Prepare lib f (.client c)).state.RoutingRuleLRUCacheTTL = f.RoutingRuleLRUCacheTTL ∧
      (Prepare lib f (.client c)).state.Topic = f.Topic := by
  have hexp : wrapInt64 (Second * wrapInt64 f.RoutingRuleLRUCacheTTL)
      = f.RoutingRuleLRUCacheTTL * 1000000000 := by
    rw [wrapInt64_of_fits f.RoutingRuleLRUCacheTTL (by omega) (by omega)]
    unfold Second
    rw [wrapInt64_of_fits _ (by omega) (by omega)]
    ring
  cases hnew : lib.NewSyncProducerFromClient c with
  | mk producer err =>
    rw [hnew] at hbuilt
    simp only at hbuilt
    subst hbuilt
    have hpos : ¬ f.RoutingRuleLRUCacheSize ≤ 0 := by omega
    simp only [Prepare, hnew, hpos, if_false, hexp, and_self]

/-- The sample forwarder, 5000 entries and 180 seconds, on a client that builds a
producer. -/
theorem Prepare_success_witness :
    (sampleLibrary.NewSyncProducerFromClient 1).2 = none ∧
    0 < freshForwarder.RoutingRuleLRUCacheSize ∧
    0 < freshForwarder.RoutingRuleLRUCacheTTL ∧
    freshForwarder.RoutingRuleLRUCacheTTL ≤ 9223372036 ∧
    (Prepare sampleLibrary freshForwarder (.client 1)).outcome = .returned none ∧
    (Prepare sampleLibrary freshForwarder (.client 1)).state.upstreamCacheExpire
      = 180000000000 :=
  have h := Prepare_success sampleLibrary freshForwarder 1 rfl (by decide) (by decide)
    (by decide)
  ⟨rfl, by decide, by decide, by decide, h.1, h.2.2.2.1⟩

/-- C9 as stated fails: with a lifetime of 9223372037 seconds, which is positive, the
product wraps around and the lifetime held after `Prepare` is not 9223372037 times
1000000000 nanoseconds (it is negative). -/
theorem Prepare_lifetime_wraps_around :
    (sampleLibrary.NewSyncProducerFromClient 1).2 = none ∧
    0 < longLivedForwarder.RoutingRuleLRUCacheSize ∧
    0 < longLivedForwarder.RoutingRuleLRUCacheTTL ∧
    (Prepare sampleLibrary longLivedForwarder (.client 1)).outcome = .returned none ∧
    (Prepare sampleLibrary longLivedForwarder (.client 1)).state.upstreamCacheExpire
      = -9223372036709551616 ∧
    ¬ ((Prepare sampleLibrary longLivedForwarder (.client 1)).state.upstreamCacheExpire
        = longLivedForwarder.RoutingRuleLRUCacheTTL * 1000000000) := by
  decide

/-- C10, as the code has it.  On a Kafka client for which building the producer fails,
with a positive `RoutingRuleLRUCacheSize`, `Prepare` returns the error of
`sarama.NewSyncProducerFromClient` itself and leaves `producer` as it was, but the cache
and the lifetime are already replaced: the cache by the one built for
`RoutingRuleLRUCacheSize`, the lifetime by the `int64` product of `time.Second` and
`RoutingRuleLRUCacheTTL`.  The other fields are as before. -/
theorem Prepare_construction_error {M C K : Type} (lib : Library M C K) (f : Forwarder K)
    (c : C) (err : GoError)
    (hfails : (lib.NewSyncProducerFromClient c).2 = some err)
    (hsize : 0 < f.RoutingRuleLRUCacheSize) :
    (Prepare lib f (.client c)).outcome = .returned (some err) ∧
      (Prepare lib f (.client c)).state.producer = f.producer ∧
      (Prepare lib f (.client c)).state.upstreamCache
        = some (lib.NewLRUExpireCache f.RoutingRuleLRUCacheSize) ∧
      (Prepare lib f (.client c)).state.upstreamCacheExpire
        = wrapInt64 (Second * wrapInt64 f.RoutingRuleLRUCacheTTL) ∧
      (Prepare lib f (.client c)).state.RoutingRuleLRUCacheSize = f.RoutingRuleLRUCacheSize ∧
      (Prepare lib f (.client c)).state.RoutingRuleLRUCacheTTL = f.RoutingRuleLRUCacheTTL ∧
      (Prepare lib f (.client c)).state.Topic = f.Topic ∧
      (Prepare lib f (.client c)).state.CommonFields = f.CommonFields ∧
      (Prepare lib f (.client c)).state.meterClient = f.meterClient := by
  cases hnew : lib.NewSyncProducerFromClient c with
  | mk producer e =>
    rw [hnew] at hfails
    simp only at hfails
    subst hfails
    have hpos : ¬ f.RoutingRuleLRUCacheSize ≤ 0 := by omega
    simp only [Prepare, hnew, hpos, if_false, and_self]

/-- A client that cannot build a producer: the error comes back, and the cache and the
lifetime of the forwarder, unset before, are set. -/
theorem Prepare_construction_error_witness :
    (sampleLibrary.NewSyncProducerFromClient 0).2
      = some (.foreign "kafka: client has run out of available brokers") ∧
    0 < freshForwarder.RoutingRuleLRUCacheSize ∧
    (Prepare sampleLibrary freshForwarder (.client 0)).outcome
      = .returned (some (.foreign "kafka: client has run out of available brokers")) ∧
    (Prepare sampleLibrary freshForwarder (.client 0)).state.upstreamCache = some 5000 ∧
    freshForwarder.upstreamCache = none ∧
    (Prepare sampleLibrary freshForwarder (.client 0)).state.upstreamCacheExpire
      = 180000000000 ∧
    freshForwarder.upstreamCacheExpire = 0 :=
  have h := Prepare_construction_error sampleLibrary freshForwarder 0
    (.foreign "kafka: client has run out of available brokers") rfl (by decide)
  ⟨rfl, by decide, h.1, h.2.2.1, rfl, by decide, rfl⟩

/-- C10 as stated fails: with the size of the cache left at zero, on a client that cannot
build a producer, `Prepare` does not return the error of the construction.  It panics in
`cache.NewLRUExpireCache`, and neither the cache nor the lifetime is replaced. -/
theorem Prepare_construction_error_with_size_zero :
    (sampleLibrary.NewSyncProducerFromClient 0).2
      = some (.foreign "kafka: client has run out of available brokers") ∧
    (Prepare sampleLibrary topicOnlyForwarder (.client 0)).outcome = .panicked .cacheSize ∧
    ¬ ((Prepare sampleLibrary topicOnlyForwarder (.client 0)).outcome
        = .returned (some (.foreign "kafka: client has run out of available brokers"))) ∧
    (Prepare sampleLibrary topicOnlyForwarder (.client 0)).state.upstreamCache
      = topicOnlyForwarder.upstreamCache ∧
    (Prepare sampleLibrary topicOnlyForwarder (.client 0)).state.upstreamCacheExpire
      = topicOnlyForwarder.upstreamCacheExpire :=
  ⟨rfl, by decide, by decide, rfl, rfl⟩

/-- On a Kafka client, with a `RoutingRuleLRUCacheSize` that is not positive, `Prepare`
panics in `cache.NewLRUExpireCache` and leaves the forwarder as it was, whatever the
construction of the producer gave. -/
theorem Prepare_cache_size_not_positive {M C K : Type} (lib : Library M C K)
    (f : Forwarder K) (c : C) (hsize : f.RoutingRuleLRUCacheSize ≤ 0) :
    (Prepare lib f (.client c)).outcome = .panicked .cacheSize ∧
      (Prepare lib f (.client c)).state = f := by
  cases hnew : lib.NewSyncProducerFromClient c with
  | mk producer err =>
    simp only [Prepare, hnew, hsize, if_true, and_self]

/-! ## SyncForward -/

/-- C8. Whatever the forwarder and the item, nil included, `SyncForward` returns a nil
result with the error "unsupport sync forward", and `SupportedSyncInvoke` returns false. -/
theorem SyncForward_is_not_supported {M K : Type} (f : Forwarder K)
    (x : Option (SniffData M)) :
    SyncForward f x = (none, some (.Errorf "unsupport sync forward")) ∧
      SupportedSyncInvoke f = false :=
  ⟨rfl, rfl⟩

end nativemeter
